import Mathlib

/-!
Verification of the streaming completion engine of shell_gpt.

The definitions below are a shallow embedding of `sgpt/handlers/handler.py`
(`get_provider_completion`, `Handler.handle_function_call`,
`Handler.get_completion`).  The provider stream is modelled as a list of
stream events (chunks, or an external interrupt); the generator is modelled
as a function returning the ordered list of yielded fragments together with
the final message list, the provider-call records, the executed functions,
and the error/cancellation outcome.  Python's in-place mutation of the
message list is modelled by explicit state threading, and Python falsiness
of strings (`x or y`) and of optional lists (`if functions:`) is modelled
explicitly.
-/

namespace SGpt

/-- String constants used by the handler code. -/
def strAssistant : String := "assistant"

def strTool : String := "tool"

def strFunction : String := "function"

def strToolCalls : String := "tool_calls"

def strStop : String := "stop"

def strAuto : String := "auto"

def strNewline : String := "\n"

def strDefault : String := "default"

/-- Modelled from the spec: the role module (`sgpt/role.py`) is not under
`src/`; the spec reserves three built-in roles ("shell-command generation,
code-only generation, and shell-command description").  Their names are
modelled as three distinct string constants; the handler only compares
`self.role.name` against them for equality. -/
def shellRoleName : String := "Shell Command Generator"

/-- Modelled from the spec: built-in code-only generation role name. -/
def codeRoleName : String := "Code Generator"

/-- Modelled from the spec: built-in shell-command description role name. -/
def describeShellRoleName : String := "Shell Command Descriptor"

/-- Python `x or y` for strings, where `None` is modelled by `""`
(both are falsy): used by `tool_call_id = tool_call.id or tool_call_id`. -/
def pyOr (x y : String) : String :=
  if x == "" then y else x

/-- One tool-call delta inside a stream chunk
(`delta.tool_calls[i]`): `id`, `function.name`, `function.arguments`,
with `None` modelled by `""`. -/
structure ToolCallDelta where
  id : String
  name : String
  arguments : String
deriving DecidableEq, Repr

/-- Embedding of `chunk.choices[0].delta`: optional text content plus tool-call deltas. -/
structure Delta where
  content : Option String
  tool_calls : List ToolCallDelta
deriving DecidableEq, Repr

/-- Embedding of `chunk.choices[0]`: a delta plus an optional finish reason. -/
structure Choice where
  delta : Delta
  finish_reason : Option String
deriving DecidableEq, Repr

/-- One stream chunk; `choices` may be empty (the loop skips such chunks). -/
structure Chunk where
  choices : List Choice
deriving DecidableEq, Repr

/-- One event observed while draining the provider stream: either the next
chunk arrives, or an external interrupt (`KeyboardInterrupt`) occurs at this
point of the drain. -/
inductive StreamEvent where
  | chunk (c : Chunk)
  | interrupt
deriving DecidableEq, Repr

/-- A recorded tool call inside an assistant message
(`{"id": ..., "type": "function", "function": {"name": ..., "arguments": ...}}`). -/
structure ToolCallRec where
  id : String
  type : String
  name : String
  arguments : String
deriving DecidableEq, Repr

/-- A chat message dict.  Absent `tool_calls` is modelled by `[]` and an
absent `tool_call_id` by `none`. -/
structure Message where
  role : String
  content : Option String
  tool_calls : List ToolCallRec
  tool_call_id : Option String
deriving DecidableEq, Repr

/-- Parsed tool arguments: the ordered key/value pairs of the JSON object
produced by `json.loads` (Python dicts preserve insertion order). -/
abbrev ArgsMap := List (String × String)

/-- A tool schema, `Dict[str, str]` in the source. -/
abbrev Schema := List (String × String)

/-- The assistant message appended by `handle_function_call` to record the
tool call before executing it. -/
def assistantToolCallMessage (tool_call_id name arguments : String) : Message :=
  { role := strAssistant
    content := none
    tool_calls := [⟨tool_call_id, strFunction, name, arguments⟩]
    tool_call_id := none }

/-- The tool-role message appended by `handle_function_call` after the
function returns. -/
def toolResponseMessage (result tool_call_id : String) : Message :=
  { role := strTool
    content := some result
    tool_calls := []
    tool_call_id := some tool_call_id }

/-- Embedding of `messages and messages[-1]["role"] == "assistant"`. -/
def lastRoleIsAssistant (messages : List Message) : Bool :=
  match messages.getLast? with
  | some m => m.role == strAssistant
  | none => false

/-- Embedding of the `", ".join(...)` expression building the argument list of the trace line. -/
def joinedArgs (dict_args : ArgsMap) : String :=
  String.intercalate (", ") (dict_args.map fun kv => kv.1 ++ "=\x22" ++ kv.2 ++ "\x22")

/-- The `> @FunctionCall ...` trace line yielded by `handle_function_call`. -/
def functionCallTrace (name : String) (dict_args : ArgsMap) : String :=
  "> @FunctionCall `" ++ name ++ "(" ++ joinedArgs dict_args ++ ")` \n\n"

/-- Outcome of `handle_function_call`: either it completes normally
(yields, final message list, the function executions it performed), or
`json.loads(arguments)` raised — the error carries the raw argument text,
and the message list as already mutated at that point. -/
inductive FCOutcome where
  | ok (yields : List String) (messages : List Message)
      (execs : List (String × ArgsMap))
  | error (raw : String) (yields : List String) (messages : List Message)
deriving Repr

/-- Shallow embedding of `Handler.handle_function_call`.

`parse` models `json.loads` on the accumulated arguments string (`none`
means the parse raises), `registry` models
`get_function(name)(**dict_args)`, and `showOutput` models
`cfg.get("SHOW_FUNCTIONS_OUTPUT") == "true"`.  The Python code mutates
`messages` in place; here the (possibly partially) mutated list is part of
the outcome. -/
def handle_function_call (showOutput : Bool) (parse : String → Option ArgsMap)
    (registry : String → ArgsMap → String) (messages : List Message)
    (tool_call_id name arguments : String) : FCOutcome :=
  let messages := messages ++ [assistantToolCallMessage tool_call_id name arguments]
  let y1 : List String := if lastRoleIsAssistant messages then [strNewline] else []
  match parse arguments with
  | none => .error arguments y1 messages
  | some dict_args =>
    let y2 : List String := [functionCallTrace name dict_args]
    let result := registry name dict_args
    let y3 : List String :=
      if showOutput then ["```text\n" ++ result ++ "\n```\n"] else []
    let messages := messages ++ [toolResponseMessage result tool_call_id]
    .ok (y1 ++ y2 ++ y3) messages [(name, dict_args)]

/-- One step of the per-chunk tool-call accumulation
(`tool_call_id = tool_call.id or tool_call_id`;
`name = tool_call.function.name or name`;
`arguments += tool_call.function.arguments or ""`).  The accumulator is
`(tool_call_id, name, arguments)`. -/
def accStep (acc : String × String × String) (tc : ToolCallDelta) :
    String × String × String :=
  (pyOr tc.id acc.1, pyOr tc.name acc.2.1, acc.2.2 ++ tc.arguments)

/-- How the drain of one provider stream ends: the stream is exhausted,
an external interrupt occurred, or a chunk carried
`finish_reason == "tool_calls"` (with the accumulated id/name/arguments). -/
inductive DrainOutcome where
  | done
  | interrupted
  | toolCall (id name arguments : String)
deriving DecidableEq, Repr

/-- The `for chunk in response` loop of `get_completion`, for one stream:
skip chunks with empty `choices`, fold the tool-call deltas into the
accumulator, stop at `finish_reason == "tool_calls"` (the content of that
chunk is NOT yielded: the code returns before reaching
`yield delta.content or ""`), otherwise yield `delta.content or ""` and
continue.  An interrupt event ends the drain (`except KeyboardInterrupt`),
keeping the fragments already yielded. -/
def drainSegment : List StreamEvent → String × String × String →
    List String × DrainOutcome
  | [], _ => ([], .done)
  | .interrupt :: _, _ => ([], .interrupted)
  | .chunk c :: rest, acc =>
    match c.choices with
    | [] => drainSegment rest acc
    | choice :: _ =>
      let acc2 := choice.delta.tool_calls.foldl accStep acc
      if choice.finish_reason == some strToolCalls then
        ([], .toolCall acc2.1 acc2.2.1 acc2.2.2)
      else
        let r := drainSegment rest acc2
        ((choice.delta.content.getD "") :: r.1, r.2)

/-- Embedding of `if functions:` — Python truthiness of `Optional[List[...]]`:
false for `None` and for the empty list. -/
def pyTruthy (functions : Option (List Schema)) : Bool :=
  match functions with
  | none => false
  | some l => !l.isEmpty

/-- Embedding of `self.role.name == DefaultRoles.SHELL.value or ... CODE ... or
... DESCRIBE_SHELL ...`. -/
def isReservedRole (roleName : String) : Bool :=
  roleName == shellRoleName || roleName == codeRoleName ||
    roleName == describeShellRoleName

/-- The hard override at the top of `get_completion`: built-in
shell/code/describe-shell roles drop the caller-supplied tool schemas. -/
def resolveFunctions (roleName : String) (functions : Option (List Schema)) :
    Option (List Schema) :=
  if isReservedRole roleName then none else functions

/-- The tool-related request arguments of one provider invocation, plus the
`caching` flag the `get_completion` invocation was made with.  A `none`
field means the keyword argument is absent from `request_kwargs`. -/
structure CallRecord where
  caching : Bool
  tools : Option (List Schema)
  tool_choice : Option String
  parallel_tool_calls : Option Bool
deriving DecidableEq, Repr

/-- The `request_kwargs` construction of `get_completion`: tool fields are set
iff `functions` is truthy (non-`None` and non-empty). -/
def requestRecord (caching : Bool) (functions : Option (List Schema)) :
    CallRecord :=
  if pyTruthy functions then
    { caching := caching
      tools := functions
      tool_choice := some strAuto
      parallel_tool_calls := some false }
  else
    { caching := caching
      tools := none
      tool_choice := none
      parallel_tool_calls := none }

/-- Environment of a `get_completion` run: configuration and external
collaborators (JSON parsing, the function registry, the handler's role). -/
structure Env where
  showOutput : Bool
  parse : String → Option ArgsMap
  registry : String → ArgsMap → String
  roleName : String

/-- Observable outcome of a `get_completion` run: the yielded fragments in
order, the final message list, one `CallRecord` per provider invocation (in
invocation order), the executed functions with their parsed arguments (in
execution order), whether a stream connection was closed by the interrupt
handler, and the argument-parse error if one was raised (carrying the raw
argument text, as `json.JSONDecodeError` does). -/
structure RunResult where
  yields : List String
  messages : List Message
  calls : List CallRecord
  funcExecs : List (String × ArgsMap)
  closedEarly : Bool
  error : Option String
deriving Repr

/-- Shallow embedding of `Handler.get_completion` (the live producer path;
the `@cache` wrapper belongs to the cache module, which only forwards to
this body on a miss or with caching disabled).

The scripted provider is the list `script`: each invocation of
`get_completion` performs one provider call and drains the next segment;
on `finish_reason == "tool_calls"` it runs `handle_function_call` and
recurses on the rest of the script with `caching=False`.  An empty script
models a provider whose stream yields no chunks. -/
def getCompletion (env : Env) (caching : Bool)
    (functions : Option (List Schema)) (messages : List Message) :
    List (List StreamEvent) → RunResult
  | [] =>
    { yields := []
      messages := messages
      calls := [requestRecord caching (resolveFunctions env.roleName functions)]
      funcExecs := []
      closedEarly := false
      error := none }
  | seg :: rest =>
    let fns := resolveFunctions env.roleName functions
    let rec0 := requestRecord caching fns
    let d := drainSegment seg ("", "", "")
    match d.2 with
    | .done =>
      { yields := d.1, messages := messages, calls := [rec0]
        funcExecs := [], closedEarly := false, error := none }
    | .interrupted =>
      { yields := d.1, messages := messages, calls := [rec0]
        funcExecs := [], closedEarly := true, error := none }
    | .toolCall tid nm args =>
      match handle_function_call env.showOutput env.parse env.registry
          messages tid nm args with
      | .error raw fys msgs =>
        { yields := d.1 ++ fys, messages := msgs, calls := [rec0]
          funcExecs := [], closedEarly := false, error := some raw }
      | .ok fys msgs execs =>
        let sub := getCompletion env false fns msgs rest
        { yields := d.1 ++ fys ++ sub.yields
          messages := sub.messages
          calls := rec0 :: sub.calls
          funcExecs := execs ++ sub.funcExecs
          closedEarly := sub.closedEarly
          error := sub.error }

/-! ## Provider gateway (`get_provider_completion`) -/

/-- The configuration keys read by `get_provider_completion`.
`use_litellm` is read once at module import (`cfg.get("USE_LITELLM")`), the
other three inside the function body. -/
structure Cfg where
  use_litellm : Bool
  request_timeout : Int
  openai_api_key : String
  api_base_url : String
deriving DecidableEq, Repr

/-- The resolved completion capability: either `litellm.completion` or the
`chat.completions.create` method of an `OpenAI` client constructed with the
given arguments. -/
inductive Capability where
  | litellm
  | openaiCreate (timeout : Int) (api_key : String) (base_url : Option String)
deriving DecidableEq, Repr

/-- The `completion_kwargs` dict returned alongside the capability.  A
`none` field means the key is absent from the dict. -/
structure ProviderKwargs where
  timeout : Option Int
  api_key : Option String
  base_url : Option (Option String)
deriving DecidableEq, Repr

/-- The empty `completion_kwargs` dict. -/
def emptyKwargs : ProviderKwargs :=
  { timeout := none, api_key := none, base_url := none }

/-- The module-level mutable state of `handler.py`:
`completion: Optional[Callable]` and `completion_kwargs: Dict`. -/
structure ProviderState where
  completion : Option Capability
  completion_kwargs : ProviderKwargs
deriving DecidableEq, Repr

/-- The module state at import time: `completion = None`,
`completion_kwargs = {}`. -/
def initialProviderState : ProviderState :=
  { completion := none, completion_kwargs := emptyKwargs }

/-- Shallow embedding of `get_provider_completion`.  Returns the
`(completion, dict(completion_kwargs))` pair, the updated module state, and
the number of `cfg.get` calls performed by this invocation (the memoized
fast path performs none). -/
def get_provider_completion (cfg : Cfg) (s : ProviderState) :
    (Capability × ProviderKwargs) × ProviderState × Nat :=
  match s.completion with
  | some c => ((c, s.completion_kwargs), s, 0)
  | none =>
    let base_url := cfg.api_base_url
    let resolved_base : Option String :=
      if base_url == strDefault then none else some base_url
    let provider_kwargs : ProviderKwargs :=
      { timeout := some cfg.request_timeout
        api_key := some cfg.openai_api_key
        base_url := some resolved_base }
    if cfg.use_litellm then
      let kw : ProviderKwargs := { provider_kwargs with api_key := none }
      ((Capability.litellm, kw), ⟨some Capability.litellm, kw⟩, 3)
    else
      let cap := Capability.openaiCreate cfg.request_timeout
        cfg.openai_api_key resolved_base
      ((cap, emptyKwargs), ⟨some cap, emptyKwargs⟩, 3)

/-! ## Request fingerprint (cache key) -/

/-- Modelled from the spec: the cache module (`sgpt/cache.py`, wired in via
the `@cache` decorator on `get_completion`) is not under `src/`.  Per spec
§3, the fingerprint is "a deterministic digest derived from the ordered
list of (model, temperature, top_p, message list, whether tool schemas
were supplied)", and equal requests MUST yield equal fingerprints while any
change to one of the fields MUST yield a different one; the digest is
therefore modelled as the injective tuple of those five fields (temperature
and top_p are modelled as rationals, their numeric values). -/
structure Fingerprint where
  model : String
  temperature : Rat
  top_p : Rat
  messages : List Message
  toolSchemasSupplied : Bool
deriving DecidableEq, Repr

/-- Modelled from the spec: the fingerprint of a request, as a function of
the keyword arguments of `get_completion` ("whether tool schemas were
supplied" is the presence of the `functions` argument). -/
def requestFingerprint (model : String) (temperature top_p : Rat)
    (messages : List Message) (functions : Option (List Schema)) :
    Fingerprint :=
  { model := model
    temperature := temperature
    top_p := top_p
    messages := messages
    toolSchemasSupplied := functions.isSome }

/-! ## Helper definitions and lemmas -/

/-- The last non-empty string of `l`, defaulting to `dflt` when every
element is empty ("last non-empty wins"). -/
def lastNonEmptyWins (dflt : String) (l : List String) : String :=
  ((l.filter (fun s => s != "")).getLast?).getD dflt

lemma lastNonEmptyWins_cons (d x : String) (xs : List String) :
    lastNonEmptyWins d (x :: xs) = lastNonEmptyWins (pyOr x d) xs := by
  unfold lastNonEmptyWins pyOr
  by_cases hx : x = ""
  · subst hx; simp
  · have hxb : (x != "") = true := by simp [hx]
    have hxb' : (x == "") = false := by simp [hx]
    rw [List.filter_cons_of_pos (by simp [hxb]), hxb']
    cases h : xs.filter (fun s => s != "") with
    | nil => simp [h]
    | cons y ys =>
      simp only [h, List.getLast?_cons_cons]
      cases hh : (y :: ys).getLast? with
      | none => simp at hh
      | some z => simp

lemma string_foldl_append (l : List String) (a : String) :
    l.foldl (fun r s => r ++ s) a = a ++ l.foldl (fun r s => r ++ s) "" := by
  induction l generalizing a with
  | nil => simp
  | cons x xs ih =>
    simp only [List.foldl_cons]
    rw [ih (a ++ x), ih ("" ++ x), String.empty_append, String.append_assoc]

lemma string_join_cons (a : String) (l : List String) :
    String.join (a :: l) = a ++ String.join l := by
  simp only [String.join, List.foldl_cons, String.empty_append]
  exact string_foldl_append l a

/-! ## Claim theorems -/

/-- C4: while draining the stream, tool-call deltas are accumulated across
chunks by folding `accStep` over the deltas in arrival order (the same
accumulator `(tool_call_id, name, arguments)` is threaded through every
chunk): the resulting id and name are the last non-empty values seen
(falling back to the initial accumulator), and the resulting arguments
string is the initial arguments followed by the concatenation of all
argument fragments in arrival order. -/
theorem toolcall_delta_accumulation (init : String × String × String)
    (l : List ToolCallDelta) :
    (l.foldl accStep init).1 =
        lastNonEmptyWins init.1 (l.map ToolCallDelta.id) ∧
    (l.foldl accStep init).2.1 =
        lastNonEmptyWins init.2.1 (l.map ToolCallDelta.name) ∧
    (l.foldl accStep init).2.2 =
        init.2.2 ++ String.join (l.map ToolCallDelta.arguments) := by
  induction l generalizing init with
  | nil => simp [lastNonEmptyWins, String.join]
  | cons tc l ih =>
    obtain ⟨h1, h2, h3⟩ := ih (accStep init tc)
    refine ⟨?_, ?_, ?_⟩
    · rw [List.foldl_cons, List.map_cons, lastNonEmptyWins_cons]
      exact h1
    · rw [List.foldl_cons, List.map_cons, lastNonEmptyWins_cons]
      exact h2
    · rw [List.foldl_cons, List.map_cons, string_join_cons,
        ← String.append_assoc]
      exact h3

lemma lastRoleIsAssistant_append_assistant (messages : List Message)
    (tid nm args : String) :
    lastRoleIsAssistant
      (messages ++ [assistantToolCallMessage tid nm args]) = true := by
  simp [lastRoleIsAssistant, List.getLast?_concat, assistantToolCallMessage]

/-- C10: when `json.loads(arguments)` fails, `handle_function_call` has
already appended the assistant message recording the tool call (after first
yielding the `"\n"` separator); the error outcome carries the message list
with that assistant message still appended — it is not rolled back — and no
tool-role message is appended, so the number of tool-role messages is
unchanged. -/
theorem parse_error_leaves_assistant_message (showOutput : Bool)
    (parse : String → Option ArgsMap) (registry : String → ArgsMap → String)
    (messages : List Message) (tid nm args : String)
    (hp : parse args = none) :
    handle_function_call showOutput parse registry messages tid nm args =
      .error args [strNewline]
        (messages ++ [assistantToolCallMessage tid nm args]) ∧
    ((messages ++ [assistantToolCallMessage tid nm args]).filter
        (fun m => m.role == strTool)).length =
      (messages.filter (fun m => m.role == strTool)).length := by
  constructor
  · simp [handle_function_call, hp, lastRoleIsAssistant_append_assistant]
  · simp [List.filter_append, assistantToolCallMessage, strAssistant, strTool]

/-- Witness for C10 at a concrete input: the parse of `"oops"` fails, the
outcome is the error carrying the raw arguments, and the message list has
gained exactly the assistant message. -/
theorem parse_error_leaves_assistant_message_witness :
    handle_function_call false (fun _ => none) (fun _ _ => "") [] "id0" "fn" "oops" =
      .error "oops" [strNewline]
        ([] ++ [assistantToolCallMessage "id0" "fn" "oops"]) ∧
    ((([] : List Message) ++ [assistantToolCallMessage "id0" "fn" "oops"]).filter
        (fun m => m.role == strTool)).length =
      (([] : List Message).filter (fun m => m.role == strTool)).length :=
  parse_error_leaves_assistant_message false (fun _ => none) (fun _ _ => "")
    [] "id0" "fn" "oops" rfl

/-- C3 (fingerprint determinism, modelled from the spec since the cache
module is not under `src/`): two requests have the same fingerprint exactly
when they agree on model, temperature, top_p, the message sequence, and
tool-schema presence; in particular equal requests have equal fingerprints,
and changing any one of these fields — including any change to the message
list, such as assistant/tool turns appended during tool-call resolution —
changes the fingerprint. -/
theorem fingerprint_deterministic (m m' : String) (t t' p p' : Rat)
    (msgs msgs' : List Message) (fns fns' : Option (List Schema)) :
    requestFingerprint m t p msgs fns = requestFingerprint m' t' p' msgs' fns' ↔
      (m = m' ∧ t = t' ∧ p = p' ∧ msgs = msgs' ∧ fns.isSome = fns'.isSome) := by
  simp [requestFingerprint, Fingerprint.mk.injEq]

/-- C8: the provider completion capability is resolved at most once.
Starting from a state where `completion is None`, the first call to
`get_provider_completion` constructs the capability from configuration and
memoizes it, and the second call returns the same capability with equal
provider kwargs, leaves the module state unchanged (so every further call
behaves identically), and performs zero `cfg.get` reads. -/
theorem provider_capability_memoized (cfg : Cfg) (s0 : ProviderState)
    (h : s0.completion = none) :
    ((get_provider_completion cfg s0).2.1.completion =
        some (get_provider_completion cfg s0).1.1) ∧
    ((get_provider_completion cfg (get_provider_completion cfg s0).2.1).1 =
        (get_provider_completion cfg s0).1) ∧
    ((get_provider_completion cfg (get_provider_completion cfg s0).2.1).2.1 =
        (get_provider_completion cfg s0).2.1) ∧
    ((get_provider_completion cfg (get_provider_completion cfg s0).2.1).2.2 =
        0) := by
  by_cases hl : cfg.use_litellm
  · simp [get_provider_completion, h, hl]
  · simp [get_provider_completion, h, hl]

/-- Witness for C8 at a concrete configuration and the initial module
state. -/
theorem provider_capability_memoized_witness :
    ((get_provider_completion ⟨true, 60, "k", "default"⟩
        initialProviderState).2.1.completion =
      some (get_provider_completion ⟨true, 60, "k", "default"⟩
        initialProviderState).1.1) ∧
    ((get_provider_completion ⟨true, 60, "k", "default"⟩
        (get_provider_completion ⟨true, 60, "k", "default"⟩
          initialProviderState).2.1).1 =
      (get_provider_completion ⟨true, 60, "k", "default"⟩
        initialProviderState).1) ∧
    ((get_provider_completion ⟨true, 60, "k", "default"⟩
        (get_provider_completion ⟨true, 60, "k", "default"⟩
          initialProviderState).2.1).2.1 =
      (get_provider_completion ⟨true, 60, "k", "default"⟩
        initialProviderState).2.1) ∧
    ((get_provider_completion ⟨true, 60, "k", "default"⟩
        (get_provider_completion ⟨true, 60, "k", "default"⟩
          initialProviderState).2.1).2.2 = 0) :=
  provider_capability_memoized ⟨true, 60, "k", "default"⟩
    initialProviderState rfl

lemma requestRecord_caching (c : Bool) (f : Option (List Schema)) :
    (requestRecord c f).caching = c := by
  unfold requestRecord
  split <;> rfl

lemma resolveFunctions_idem (roleName : String) (fns : Option (List Schema)) :
    resolveFunctions roleName (resolveFunctions roleName fns) =
      resolveFunctions roleName fns := by
  unfold resolveFunctions
  split <;> simp_all

/-- Every provider-call record of a run is a `requestRecord` for the
resolved (role-overridden) schema list of the run. -/
lemma getCompletion_calls_shape (env : Env) (caching : Bool)
    (fns : Option (List Schema)) (msgs : List Message)
    (script : List (List StreamEvent)) :
    ∀ r ∈ (getCompletion env caching fns msgs script).calls,
      ∃ c, r = requestRecord c (resolveFunctions env.roleName fns) := by
  induction script generalizing caching fns msgs with
  | nil =>
    intro r hr
    simp only [getCompletion, List.mem_singleton] at hr
    exact ⟨caching, hr⟩
  | cons seg rest ih =>
    intro r hr
    simp only [getCompletion] at hr
    split at hr
    · simp only [List.mem_singleton] at hr
      exact ⟨caching, hr⟩
    · simp only [List.mem_singleton] at hr
      exact ⟨caching, hr⟩
    · split at hr
      · simp only [List.mem_singleton] at hr
        exact ⟨caching, hr⟩
      · simp only [List.mem_cons] at hr
        rcases hr with hr | hr
        · exact ⟨caching, hr⟩
        · obtain ⟨c, hc⟩ := ih false (resolveFunctions env.roleName fns) _ r hr
          exact ⟨c, by rw [hc, resolveFunctions_idem]⟩

/-- Every `get_completion` invocation after the outermost one (every
tool-call recursion) runs with `caching = False`. -/
lemma getCompletion_calls_all_false (env : Env) (fns : Option (List Schema))
    (msgs : List Message) (script : List (List StreamEvent)) :
    ∀ r ∈ (getCompletion env false fns msgs script).calls,
      r.caching = false := by
  induction script generalizing fns msgs with
  | nil =>
    intro r hr
    simp only [getCompletion, List.mem_singleton] at hr
    rw [hr, requestRecord_caching]
  | cons seg rest ih =>
    intro r hr
    simp only [getCompletion] at hr
    split at hr
    · simp only [List.mem_singleton] at hr
      rw [hr, requestRecord_caching]
    · simp only [List.mem_singleton] at hr
      rw [hr, requestRecord_caching]
    · split at hr
      · simp only [List.mem_singleton] at hr
        rw [hr, requestRecord_caching]
      · simp only [List.mem_cons] at hr
        rcases hr with hr | hr
        · rw [hr, requestRecord_caching]
        · exact ih _ _ r hr

/-- The first provider-call record of a run. -/
lemma getCompletion_calls_head (env : Env) (caching : Bool)
    (fns : Option (List Schema)) (msgs : List Message)
    (script : List (List StreamEvent)) :
    (getCompletion env caching fns msgs script).calls.head? =
      some (requestRecord caching (resolveFunctions env.roleName fns)) := by
  cases script with
  | nil => rfl
  | cons seg rest =>
    simp only [getCompletion]
    split
    · rfl
    · rfl
    · split
      · rfl
      · rfl

/-- A concrete non-reserved-role environment used by witnesses:
`parse` succeeds only on `"{}"` (with an empty argument object), the
registry always returns `"res"`, function output display is off. -/
def envW : Env :=
  ⟨false, fun s => if s == "{}" then some [] else none, fun _ _ => "res",
    "custom"⟩

/-- A concrete environment whose role is the built-in shell role. -/
def envShellW : Env :=
  ⟨false, fun s => if s == "{}" then some [] else none, fun _ _ => "res",
    shellRoleName⟩

/-- C2: when the handler's role is one of the built-in shell, code, or
describe-shell roles, no provider invocation of the run carries tool
schemas — the `tools`, `tool_choice` and `parallel_tool_calls` arguments
are all absent — even when the caller supplied a (possibly non-empty)
`functions` list. -/
theorem reserved_roles_never_send_tools (env : Env) (caching : Bool)
    (functions : Option (List Schema)) (messages : List Message)
    (script : List (List StreamEvent))
    (h : isReservedRole env.roleName = true) :
    ∀ r ∈ (getCompletion env caching functions messages script).calls,
      r.tools = none ∧ r.tool_choice = none ∧
        r.parallel_tool_calls = none := by
  intro r hr
  obtain ⟨c, rfl⟩ :=
    getCompletion_calls_shape env caching functions messages script r hr
  have hres : resolveFunctions env.roleName functions = none := by
    simp [resolveFunctions, h]
  rw [hres]
  simp [requestRecord, pyTruthy]

/-- Witness for C2: the shell role with a non-empty caller-supplied schema
list; the single provider call of the run has no tool fields. -/
theorem reserved_roles_never_send_tools_witness :
    isReservedRole envShellW.roleName = true ∧
    ((⟨true, none, none, none⟩ : CallRecord).tools = none ∧
      (⟨true, none, none, none⟩ : CallRecord).tool_choice = none ∧
      (⟨true, none, none, none⟩ : CallRecord).parallel_tool_calls = none) :=
  ⟨by decide,
    reserved_roles_never_send_tools envShellW true (some [[("a", "b")]]) [] []
      (by decide) ⟨true, none, none, none⟩ (by decide)⟩

/-- C7: every `get_completion` invocation made for a tool-call resolution —
every provider-call record after the first — was made with
`caching=False`, regardless of the outer call's caching flag. -/
theorem recursion_disables_caching (env : Env) (caching : Bool)
    (functions : Option (List Schema)) (messages : List Message)
    (script : List (List StreamEvent)) :
    ∀ r ∈ (getCompletion env caching functions messages script).calls.tail,
      r.caching = false := by
  intro r hr
  cases script with
  | nil =>
    simp only [getCompletion, List.tail_cons] at hr
    simp at hr
  | cons seg rest =>
    simp only [getCompletion] at hr
    split at hr
    · simp at hr
    · simp at hr
    · split at hr
      · simp at hr
      · simp only [List.tail_cons] at hr
        exact getCompletion_calls_all_false env _ _ rest r hr

/-- Witness for C7: a concrete run that performs one tool-call recursion;
its second provider-call record has `caching = false` even though the outer
call was made with `caching = true`. -/
theorem recursion_disables_caching_witness :
    (⟨false, none, none, none⟩ : CallRecord).caching = false :=
  recursion_disables_caching envW true none []
    [[.chunk ⟨[⟨⟨some "Hel", []⟩, none⟩]⟩,
      .chunk ⟨[⟨⟨some "lo", [⟨"id1", "fn", "{}"⟩]⟩, some strToolCalls⟩]⟩],
     [.chunk ⟨[⟨⟨some "World", []⟩, some strStop⟩]⟩]]
    ⟨false, none, none, none⟩ (by decide)

/-- C6: the provider request carries tool fields iff the resolved schema
list is truthy (present and non-empty): in that case the request sets
`tools` to the schema list, `tool_choice` to `"auto"`, and
`parallel_tool_calls` to `False` (one tool invocation at a time); when the
schema list is empty or absent, none of the three tool fields is sent.
The first provider call of any run uses exactly this request record for the
role-resolved schema list. -/
theorem tool_fields_iff_schemas (caching : Bool)
    (functions : Option (List Schema)) :
    ((requestRecord caching functions).tools =
        if pyTruthy functions then functions else none) ∧
    ((requestRecord caching functions).tool_choice =
        if pyTruthy functions then some strAuto else none) ∧
    ((requestRecord caching functions).parallel_tool_calls =
        if pyTruthy functions then some false else none) ∧
    ((requestRecord caching functions).tools.isSome = pyTruthy functions) ∧
    (∀ (env : Env) (messages : List Message)
        (script : List (List StreamEvent)),
      (getCompletion env caching functions messages script).calls.head? =
        some (requestRecord caching
          (resolveFunctions env.roleName functions))) := by
  refine ⟨?_, ?_, ?_, ?_, ?_⟩
  · unfold requestRecord; split <;> simp_all
  · unfold requestRecord; split <;> simp_all
  · unfold requestRecord; split <;> simp_all
  · unfold requestRecord
    split
    · rename_i hp
      cases functions with
      | none => simp [pyTruthy] at hp
      | some l => simp [hp]
    · simp_all
  · intro env messages script
    exact getCompletion_calls_head env caching functions messages script

/-- The content fragment a chunk contributes when drained
(`delta.content or ""`); `none` when the chunk has no choices and is
skipped. -/
def chunkContent? (c : Chunk) : Option String :=
  c.choices.head?.map (fun ch => ch.delta.content.getD "")

/-- Whether a chunk does NOT carry `finish_reason == "tool_calls"`. -/
def chunkNotToolCallFinish (c : Chunk) : Bool :=
  match c.choices with
  | [] => true
  | ch :: _ => !(ch.finish_reason == some strToolCalls)

lemma drainSegment_interrupt (cs : List Chunk) (rest : List StreamEvent)
    (acc : String × String × String)
    (h : cs.all chunkNotToolCallFinish = true) :
    drainSegment (cs.map StreamEvent.chunk ++ StreamEvent.interrupt :: rest)
        acc =
      (cs.filterMap chunkContent?, .interrupted) := by
  induction cs generalizing acc with
  | nil => rfl
  | cons c cs ih =>
    simp only [List.all_cons, Bool.and_eq_true] at h
    obtain ⟨hc, hcs⟩ := h
    simp only [List.map_cons, List.cons_append]
    cases hch : c.choices with
    | nil =>
      simp only [drainSegment, hch]
      rw [ih _ hcs]
      simp [chunkContent?, hch]
    | cons ch l =>
      have hfin : (ch.finish_reason == some strToolCalls) = false := by
        simpa [chunkNotToolCallFinish, hch] using hc
      simp only [drainSegment, hch, hfin]
      rw [ih _ hcs]
      simp [chunkContent?, hch]

/-- C5: an external interrupt while draining the stream ends the run
normally: the connection is closed (`response.close()` in the
`except KeyboardInterrupt` handler), the yielded output is exactly the
content fragments of the chunks delivered before the interrupt, no error
reaches the caller, and no tool function was executed nor any message
appended. -/
theorem interrupt_closes_and_returns_partial (env : Env) (caching : Bool)
    (functions : Option (List Schema)) (messages : List Message)
    (cs : List Chunk) (rest : List StreamEvent)
    (restScript : List (List StreamEvent))
    (h : cs.all chunkNotToolCallFinish = true) :
    (getCompletion env caching functions messages
        ((cs.map StreamEvent.chunk ++ StreamEvent.interrupt :: rest)
          :: restScript)).yields = cs.filterMap chunkContent? ∧
    (getCompletion env caching functions messages
        ((cs.map StreamEvent.chunk ++ StreamEvent.interrupt :: rest)
          :: restScript)).closedEarly = true ∧
    (getCompletion env caching functions messages
        ((cs.map StreamEvent.chunk ++ StreamEvent.interrupt :: rest)
          :: restScript)).error = none ∧
    (getCompletion env caching functions messages
        ((cs.map StreamEvent.chunk ++ StreamEvent.interrupt :: rest)
          :: restScript)).messages = messages ∧
    (getCompletion env caching functions messages
        ((cs.map StreamEvent.chunk ++ StreamEvent.interrupt :: rest)
          :: restScript)).funcExecs = [] := by
  simp [getCompletion, drainSegment_interrupt cs rest ("", "", "") h]

/-- Witness for C5: one content chunk arrives, then the interrupt; the run
yields exactly that fragment, marks the connection closed, and reports no
error. -/
theorem interrupt_closes_and_returns_partial_witness :
    (getCompletion envW true none []
        [[.chunk ⟨[⟨⟨some "par", []⟩, none⟩]⟩, .interrupt]]).yields =
      ([⟨[⟨⟨some "par", []⟩, none⟩]⟩] : List Chunk).filterMap
        chunkContent? ∧
    (getCompletion envW true none []
        [[.chunk ⟨[⟨⟨some "par", []⟩, none⟩]⟩, .interrupt]]).closedEarly =
      true ∧
    (getCompletion envW true none []
        [[.chunk ⟨[⟨⟨some "par", []⟩, none⟩]⟩, .interrupt]]).error = none ∧
    (getCompletion envW true none []
        [[.chunk ⟨[⟨⟨some "par", []⟩, none⟩]⟩, .interrupt]]).messages = [] ∧
    (getCompletion envW true none []
        [[.chunk ⟨[⟨⟨some "par", []⟩, none⟩]⟩, .interrupt]]).funcExecs =
      [] :=
  interrupt_closes_and_returns_partial envW true none []
    [⟨[⟨⟨some "par", []⟩, none⟩]⟩] [] [] (by decide)

/-- C9: when the accumulated tool-call arguments do not parse, the run ends
with a fatal error carrying the offending raw argument text; the tool
function is never invoked, no further provider call is made (no retry), and
the message list keeps only the already-appended assistant message. -/
theorem malformed_args_fatal (env : Env) (caching : Bool)
    (functions : Option (List Schema)) (messages : List Message)
    (seg : List StreamEvent) (rest : List (List StreamEvent))
    (ys : List String) (tid nm args : String)
    (h1 : drainSegment seg ("", "", "") = (ys, .toolCall tid nm args))
    (hp : env.parse args = none) :
    (getCompletion env caching functions messages (seg :: rest)).error =
      some args ∧
    (getCompletion env caching functions messages (seg :: rest)).funcExecs =
      [] ∧
    (getCompletion env caching functions messages (seg :: rest)).calls =
      [requestRecord caching (resolveFunctions env.roleName functions)] ∧
    (getCompletion env caching functions messages (seg :: rest)).messages =
      messages ++ [assistantToolCallMessage tid nm args] := by
  simp [getCompletion, h1, handle_function_call, hp,
    lastRoleIsAssistant_append_assistant]

/-- Witness for C9: a stream that finishes with a tool call whose
accumulated arguments are `"oops"`, which `envW.parse` rejects. -/
theorem malformed_args_fatal_witness :
    (getCompletion envW true none []
        [[.chunk ⟨[⟨⟨none, [⟨"id1", "fn", "oops"⟩]⟩, some strToolCalls⟩]⟩]]).error =
      some "oops" ∧
    (getCompletion envW true none []
        [[.chunk ⟨[⟨⟨none, [⟨"id1", "fn", "oops"⟩]⟩, some strToolCalls⟩]⟩]]).funcExecs =
      [] ∧
    (getCompletion envW true none []
        [[.chunk ⟨[⟨⟨none, [⟨"id1", "fn", "oops"⟩]⟩, some strToolCalls⟩]⟩]]).calls =
      [requestRecord true (resolveFunctions envW.roleName none)] ∧
    (getCompletion envW true none []
        [[.chunk ⟨[⟨⟨none, [⟨"id1", "fn", "oops"⟩]⟩, some strToolCalls⟩]⟩]]).messages =
      [] ++ [assistantToolCallMessage "id1" "fn" "oops"] :=
  malformed_args_fatal envW true none []
    [.chunk ⟨[⟨⟨none, [⟨"id1", "fn", "oops"⟩]⟩, some strToolCalls⟩]⟩] []
    [] "id1" "fn" "oops" (by decide) rfl

/-- The content fragments of a scripted stream segment, in order (the
fragments the spec calls "all `content` fragments" of the segment). -/
def segmentContents (evts : List StreamEvent) : List String :=
  evts.filterMap fun e =>
    match e with
    | .chunk c => chunkContent? c
    | .interrupt => none

/-- A concrete first stream segment: one content chunk, then a chunk that
both carries content and finishes with `tool_calls`. -/
def seg1W : List StreamEvent :=
  [.chunk ⟨[⟨⟨some "Hel", []⟩, none⟩]⟩,
   .chunk ⟨[⟨⟨some "lo", [⟨"id1", "fn", "{}"⟩]⟩, some strToolCalls⟩]⟩]

/-- A concrete second stream segment: one content chunk finishing with
`stop`. -/
def seg2W : List StreamEvent :=
  [.chunk ⟨[⟨⟨some "World", []⟩, some strStop⟩]⟩]

/-- C1 (amended): with a scripted provider returning
`finish_reason=tool_calls` once and then `finish_reason=stop`, the
orchestrator executes the named function exactly once and appends exactly
one tool-role message (together with the assistant message recording the
call), but the yielded output is the content fragments of the first
segment that precede the `tool_calls` chunk, then the function-call trace
fragments emitted by `handle_function_call` (the `"\n"` separator, the
`> @FunctionCall` line, and, if enabled, the function-output block), then
the content fragments of the second segment — the content of the chunk
carrying `finish_reason=tool_calls` is never yielded, and the trace
fragments are interleaved into the output. -/
theorem tool_call_loop_resolution (env : Env) (caching : Bool)
    (functions : Option (List Schema)) (messages : List Message)
    (seg1 seg2 : List StreamEvent) (ys1 ys2 : List String)
    (tid nm args : String) (dargs : ArgsMap)
    (h1 : drainSegment seg1 ("", "", "") = (ys1, .toolCall tid nm args))
    (hp : env.parse args = some dargs)
    (h2 : drainSegment seg2 ("", "", "") = (ys2, .done)) :
    (getCompletion env caching functions messages [seg1, seg2]).funcExecs =
      [(nm, dargs)] ∧
    (getCompletion env caching functions messages [seg1, seg2]).messages =
      messages ++ [assistantToolCallMessage tid nm args,
        toolResponseMessage (env.registry nm dargs) tid] ∧
    (getCompletion env caching functions messages [seg1, seg2]).yields =
      ys1 ++ (strNewline :: functionCallTrace nm dargs ::
        (if env.showOutput then
          ["```text\n" ++ env.registry nm dargs ++ "\n```\n"] else [])) ++
        ys2 ∧
    (getCompletion env caching functions messages [seg1, seg2]).error =
      none := by
  simp [getCompletion, h1, h2, handle_function_call, hp,
    lastRoleIsAssistant_append_assistant]

/-- Witness for the amended C1 at the concrete scripted provider
`[seg1W, seg2W]`. -/
theorem tool_call_loop_resolution_witness :
    (getCompletion envW true none [] [seg1W, seg2W]).funcExecs =
      [("fn", [])] ∧
    (getCompletion envW true none [] [seg1W, seg2W]).messages =
      [] ++ [assistantToolCallMessage "id1" "fn" "{}",
        toolResponseMessage (envW.registry "fn" []) "id1"] ∧
    (getCompletion envW true none [] [seg1W, seg2W]).yields =
      ["Hel"] ++ (strNewline :: functionCallTrace "fn" [] ::
        (if envW.showOutput then
          ["```text\n" ++ envW.registry "fn" [] ++ "\n```\n"] else [])) ++
        ["World"] ∧
    (getCompletion envW true none [] [seg1W, seg2W]).error = none :=
  tool_call_loop_resolution envW true none [] seg1W seg2W ["Hel"] ["World"]
    "id1" "fn" "{}" [] (by decide) rfl (by decide)

/-- Counterexample to C1 as stated: at the scripted provider
`[seg1W, seg2W]` (which returns `finish_reason=tool_calls` exactly once
and then `finish_reason=stop`) the function does run exactly once and
exactly one tool-role message is appended, but the full yielded output is
NOT the concatenation of all content fragments of the two segments: the
trace fragments are interleaved and the `tool_calls` chunk's content
(`"lo"`) is dropped. -/
theorem tool_call_loop_output_counterexample :
    (getCompletion envW true none [] [seg1W, seg2W]).funcExecs.length =
      1 ∧
    ((getCompletion envW true none [] [seg1W, seg2W]).messages.filter
      (fun m => m.role == strTool)).length = 1 ∧
    String.join ((getCompletion envW true none [] [seg1W, seg2W]).yields) ≠
      String.join (segmentContents seg1W ++ segmentContents seg2W) := by
  refine ⟨by decide, by decide, by decide⟩

end SGpt
